import Mathlib

/-!
Verification of the health-consultation chat widget (`src/index.tsx`).

The embedding models the `HealthChatApp` component's conversation state and
its `handleSendMessage` handler.  A message is a role (`user`, `model`, or
`loading`, the pending placeholder) together with its text.  The component
state is the message list plus the `isLoading` flag.  A request's stream is
modelled by the finite list of text chunks actually delivered before the
stream either ends normally or raises (`fails`).
-/

inductive Role where
  | user
  | model
  | loading
  deriving DecidableEq, Repr

structure Message where
  role : Role
  text : String
  deriving DecidableEq, Repr

structure ChatState where
  messages : List Message
  isLoading : Bool
  deriving DecidableEq, Repr

/-- `(formData.get('prompt') as string).trim()` — strip leading and trailing
whitespace, modelled over the string's character list. -/
def jsTrim (s : String) : String :=
  String.mk (((s.data.dropWhile Char.isWhitespace).reverse.dropWhile Char.isWhitespace).reverse)

/-- The localized error text from the `catch` block of `handleSendMessage`. -/
def errorMessage : String := "Rất tiếc, đã có lỗi xảy ra. Vui lòng thử lại sau."

/-- The greeting installed by the constructor. -/
def initialMessages : List Message :=
  [⟨Role.model, "Xin chào! Tôi là trợ lý sức khỏe AI của bạn. Bạn có câu hỏi nào về sức khỏe không? Xin lưu ý, tôi không thể đưa ra chẩn đoán y khoa."⟩]

/-- `lastMessage.text = modelResponse` — mutate the text of the last element
in place (no-op on an empty list, which the code never reaches). -/
def setLastText (msgs : List Message) (t : String) : List Message :=
  match msgs.getLast? with
  | none => msgs
  | some m => msgs.dropLast ++ [{ m with text := t }]

/-- The `for await (const chunk of stream)` loop body: on the first chunk the
loading placeholder is replaced by a fresh `model` message
(`[...this.messages.slice(0, -1), { role: 'model', text: modelResponse }]`);
on later chunks the last message's text is overwritten with the accumulated
`modelResponse`.  Returns the final message list and accumulator. -/
def streamLoop : List String → List Message → String → Bool → List Message × String
  | [], msgs, resp, _ => (msgs, resp)
  | c :: cs, msgs, resp, first =>
    let resp2 := resp ++ c
    let msgs2 := if first then msgs.dropLast ++ [⟨Role.model, resp2⟩]
                 else setLastText msgs resp2
    streamLoop cs msgs2 resp2 false

/-- The message list after each iteration of the chunk loop (the observable
states between the initial append and the end of the stream). -/
def streamStates : List String → List Message → String → Bool → List (List Message)
  | [], _, _, _ => []
  | c :: cs, msgs, resp, first =>
    let resp2 := resp ++ c
    let msgs2 := if first then msgs.dropLast ++ [⟨Role.model, resp2⟩]
                 else setLastText msgs resp2
    msgs2 :: streamStates cs msgs2 resp2 false

/-- Line 279: append the user message and the loading placeholder. -/
def appendUserAndPending (msgs : List Message) (prompt : String) : List Message :=
  msgs ++ [⟨Role.user, prompt⟩, ⟨Role.loading, ""⟩]

/-- The `catch` block: replace the last message with the error text,
unconditionally (`[...this.messages.slice(0, -1), { role: 'model', text: errorMessage }]`). -/
def applyCatch (msgs : List Message) : List Message :=
  msgs.dropLast ++ [⟨Role.model, errorMessage⟩]

structure SendResult where
  state : ChatState
  requestIssued : Bool
  deriving DecidableEq, Repr

/-- `handleSendMessage`: trim the prompt; bail out if it is empty or a request
is in flight; otherwise append `user` + `loading`, set `isLoading`, consume
the stream (`chunks` are the chunks delivered before it ends or raises,
`fails` tells whether it raises), run the `catch` block if it raised, and
clear `isLoading` in the `finally` block. -/
def handleSendMessage (st : ChatState) (raw : String) (chunks : List String)
    (fails : Bool) : SendResult :=
  let prompt := jsTrim raw
  if prompt = "" ∨ st.isLoading = true then
    ⟨st, false⟩
  else
    let msgs1 := appendUserAndPending st.messages prompt
    let msgs2 := (streamLoop chunks msgs1 "" true).1
    let msgs3 := if fails then applyCatch msgs2 else msgs2
    ⟨⟨msgs3, false⟩, true⟩

/-- Every state the component renders during one `handleSendMessage` call:
the state before the call, the state right after the append (busy), the state
after each chunk update (busy), the state after the `catch` replacement when
the stream raised (busy), and the state after the `finally` block. -/
def sendTrace (st : ChatState) (raw : String) (chunks : List String)
    (fails : Bool) : List ChatState :=
  let prompt := jsTrim raw
  if prompt = "" ∨ st.isLoading = true then
    [st]
  else
    let msgs1 := appendUserAndPending st.messages prompt
    let mid := (streamStates chunks msgs1 "" true).map (fun ms => ChatState.mk ms true)
    let msgs2 := (streamLoop chunks msgs1 "" true).1
    let withCatch := if fails then [ChatState.mk (applyCatch msgs2) true] else []
    let msgs3 := if fails then applyCatch msgs2 else msgs2
    st :: ⟨msgs1, true⟩ :: (mid ++ withCatch ++ [⟨msgs3, false⟩])

/-- The accumulation `modelResponse += chunkText`, folded over the chunks. -/
def concatChunks (cs : List String) : String := cs.foldl (fun a c => a ++ c) ""

/-- One keydown event on the textarea, with the modifier flags. -/
structure KeyEvent where
  key : String
  shiftKey : Bool
  ctrlKey : Bool
  altKey : Bool
  metaKey : Bool
  deriving DecidableEq, Repr

/-- The `@keydown` handler submits the form exactly when
`e.key === 'Enter' && !e.shiftKey`. -/
def keydownSubmits (e : KeyEvent) : Bool :=
  e.key == "Enter" && !e.shiftKey

/-- A message renders as the loading placeholder. -/
def isLoadingMsg (m : Message) : Bool :=
  match m.role with
  | Role.loading => true
  | _ => false

/-- No pending (loading) message anywhere in the list. -/
def noPending (msgs : List Message) : Bool :=
  msgs.all (fun m => !(isLoadingMsg m))

/-- At most one pending (loading) message, and if present it is the last
element: equivalently, no non-final element is pending. -/
def pendingOk (msgs : List Message) : Bool :=
  msgs.dropLast.all (fun m => !(isLoadingMsg m))

/-- The component state after submitting "a" from the initial state when the
stream ends normally with zero delivered chunks: the loading placeholder is
left in place while `isLoading` is already false again. -/
def cexMidState : ChatState :=
  (handleSendMessage ⟨initialMessages, false⟩ "a" [] false).state

/-! ### Helper lemmas

Throughout a request the message list keeps the shape
`st.messages ++ [user-message, m]` for a varying final message `m`; the
lemmas below establish that shape and the exact text of the final message. -/

theorem dropLast_two (L : List Message) (u m : Message) :
    (L ++ [u, m]).dropLast = L ++ [u] := by
  have h : L ++ [u, m] = (L ++ [u]) ++ [m] := by simp
  rw [h, List.dropLast_concat]

theorem getLast?_two (L : List Message) (u m : Message) :
    (L ++ [u, m]).getLast? = some m := by
  have h : L ++ [u, m] = (L ++ [u]) ++ [m] := by simp
  rw [h, List.getLast?_concat]

theorem setLastText_two (L : List Message) (u m : Message) (t : String) :
    setLastText (L ++ [u, m]) t = L ++ [u, { m with text := t }] := by
  simp [setLastText, getLast?_two, dropLast_two]

theorem applyCatch_two (L : List Message) (u m : Message) :
    applyCatch (L ++ [u, m]) = L ++ [u, ⟨Role.model, errorMessage⟩] := by
  simp [applyCatch, dropLast_two]

theorem sendGuardFalse {st : ChatState} {raw : String}
    (hp : jsTrim raw ≠ "") (hb : st.isLoading = false) :
    ¬(jsTrim raw = "" ∨ st.isLoading = true) := by
  rintro (h | h)
  · exact hp h
  · rw [hb] at h; exact Bool.false_ne_true h

theorem streamLoop_model (cs : List String) :
    ∀ (L : List Message) (u : Message) (resp : String),
      streamLoop cs (L ++ [u, ⟨Role.model, resp⟩]) resp false
        = (L ++ [u, ⟨Role.model, cs.foldl (fun a c => a ++ c) resp⟩],
           cs.foldl (fun a c => a ++ c) resp) := by
  induction cs with
  | nil => intro L u resp; simp [streamLoop]
  | cons c cs ih =>
    intro L u resp
    simp only [streamLoop, Bool.false_eq_true, if_false, setLastText_two, List.foldl_cons]
    exact ih L u (resp ++ c)

theorem streamLoop_cons (c : String) (cs : List String) (L : List Message)
    (u m0 : Message) (resp : String) :
    streamLoop (c :: cs) (L ++ [u, m0]) resp true
      = (L ++ [u, ⟨Role.model, cs.foldl (fun a b => a ++ b) (resp ++ c)⟩],
         cs.foldl (fun a b => a ++ b) (resp ++ c)) := by
  have h2 : (L ++ [u, m0]).dropLast ++ [(⟨Role.model, resp ++ c⟩ : Message)]
      = L ++ [u, ⟨Role.model, resp ++ c⟩] := by
    rw [dropLast_two]; simp
  simp only [streamLoop, if_true, h2]
  exact streamLoop_model cs L u (resp ++ c)

theorem streamLoop_shape (cs : List String) :
    ∀ (L : List Message) (u m0 : Message) (resp : String) (first : Bool),
      ∃ m, (streamLoop cs (L ++ [u, m0]) resp first).1 = L ++ [u, m] := by
  induction cs with
  | nil => intro L u m0 resp first; exact ⟨m0, by simp [streamLoop]⟩
  | cons c cs ih =>
    intro L u m0 resp first
    cases first with
    | true =>
      rw [streamLoop_cons]
      exact ⟨_, rfl⟩
    | false =>
      simp only [streamLoop, Bool.false_eq_true, if_false, setLastText_two]
      exact ih L u _ (resp ++ c) false

theorem streamStates_shape (cs : List String) :
    ∀ (L : List Message) (u m0 : Message) (resp : String) (first : Bool),
      ∀ ms ∈ streamStates cs (L ++ [u, m0]) resp first, ∃ m, ms = L ++ [u, m] := by
  induction cs with
  | nil => intro L u m0 resp first ms h; simp [streamStates] at h
  | cons c cs ih =>
    intro L u m0 resp first ms h
    cases first with
    | true =>
      have h2 : (L ++ [u, m0]).dropLast ++ [(⟨Role.model, resp ++ c⟩ : Message)]
          = L ++ [u, ⟨Role.model, resp ++ c⟩] := by
        rw [dropLast_two]; simp
      simp only [streamStates, if_true, h2, List.mem_cons] at h
      rcases h with h | h
      · exact ⟨_, h⟩
      · exact ih L u _ (resp ++ c) false ms h
    | false =>
      simp only [streamStates, Bool.false_eq_true, if_false, setLastText_two,
        List.mem_cons] at h
      rcases h with h | h
      · exact ⟨_, h⟩
      · exact ih L u _ (resp ++ c) false ms h

theorem handleSendMessage_run (st : ChatState) (raw : String) (chunks : List String)
    (fails : Bool) (hp : jsTrim raw ≠ "") (hb : st.isLoading = false) :
    handleSendMessage st raw chunks fails
      = ⟨⟨if fails then
            applyCatch (streamLoop chunks (appendUserAndPending st.messages (jsTrim raw)) "" true).1
          else
            (streamLoop chunks (appendUserAndPending st.messages (jsTrim raw)) "" true).1,
          false⟩, true⟩ := by
  unfold handleSendMessage
  rw [if_neg (sendGuardFalse hp hb)]

theorem sendTrace_run (st : ChatState) (raw : String) (chunks : List String)
    (fails : Bool) (hp : jsTrim raw ≠ "") (hb : st.isLoading = false) :
    sendTrace st raw chunks fails
      = st :: ⟨appendUserAndPending st.messages (jsTrim raw), true⟩ ::
        ((streamStates chunks (appendUserAndPending st.messages (jsTrim raw)) "" true).map
            (fun ms => ChatState.mk ms true)
          ++ (if fails then
                [ChatState.mk
                  (applyCatch
                    (streamLoop chunks (appendUserAndPending st.messages (jsTrim raw)) "" true).1)
                  true]
              else [])
          ++ [⟨if fails then
                applyCatch
                  (streamLoop chunks (appendUserAndPending st.messages (jsTrim raw)) "" true).1
              else
                (streamLoop chunks (appendUserAndPending st.messages (jsTrim raw)) "" true).1,
              false⟩]) := by
  unfold sendTrace
  rw [if_neg (sendGuardFalse hp hb)]

theorem appendUserAndPending_eq (L : List Message) (p : String) :
    appendUserAndPending L p = L ++ [⟨Role.user, p⟩, ⟨Role.loading, ""⟩] := rfl

/-- Every state of a valid request's trace is either the pre-state or has the
shape `st.messages ++ [user message, m]` for some final message `m`. -/
theorem sendTrace_shape (st : ChatState) (raw : String) (chunks : List String)
    (fails : Bool) (hp : jsTrim raw ≠ "") (hb : st.isLoading = false) :
    ∀ s ∈ sendTrace st raw chunks fails,
      s = st ∨ ∃ m, s.messages = st.messages ++ [⟨Role.user, jsTrim raw⟩, m] := by
  intro s hs
  rw [sendTrace_run st raw chunks fails hp hb] at hs
  have hmid : ∀ ms ∈ streamStates chunks (appendUserAndPending st.messages (jsTrim raw)) "" true,
      ∃ m, ms = st.messages ++ [⟨Role.user, jsTrim raw⟩, m] := by
    rw [appendUserAndPending_eq]
    exact streamStates_shape chunks st.messages _ _ "" true
  obtain ⟨m2, hm2⟩ : ∃ m,
      (streamLoop chunks (appendUserAndPending st.messages (jsTrim raw)) "" true).1
        = st.messages ++ [⟨Role.user, jsTrim raw⟩, m] := by
    rw [appendUserAndPending_eq]
    exact streamLoop_shape chunks st.messages _ _ "" true
  have hcatch :
      applyCatch (streamLoop chunks (appendUserAndPending st.messages (jsTrim raw)) "" true).1
        = st.messages ++ [⟨Role.user, jsTrim raw⟩, ⟨Role.model, errorMessage⟩] := by
    rw [hm2, applyCatch_two]
  cases fails with
  | false =>
    simp only [Bool.false_eq_true, if_false, List.append_nil, List.mem_cons,
      List.mem_append, List.mem_map, List.mem_singleton, List.not_mem_nil,
      or_false] at hs
    rcases hs with hs | hs | ⟨ms, hms, hs⟩ | hs
    · exact Or.inl hs
    · refine Or.inr ⟨⟨Role.loading, ""⟩, ?_⟩
      rw [hs]
      exact appendUserAndPending_eq st.messages (jsTrim raw)
    · obtain ⟨m, hm⟩ := hmid ms hms
      refine Or.inr ⟨m, ?_⟩
      rw [← hs]
      exact hm
    · refine Or.inr ⟨m2, ?_⟩
      rw [hs]
      exact hm2
  | true =>
    simp only [if_true, List.mem_cons, List.mem_append, List.mem_map,
      List.mem_singleton, List.not_mem_nil, or_false] at hs
    rcases hs with hs | hs | (⟨ms, hms, hs⟩ | hs) | hs
    · exact Or.inl hs
    · refine Or.inr ⟨⟨Role.loading, ""⟩, ?_⟩
      rw [hs]
      exact appendUserAndPending_eq st.messages (jsTrim raw)
    · obtain ⟨m, hm⟩ := hmid ms hms
      refine Or.inr ⟨m, ?_⟩
      rw [← hs]
      exact hm
    · refine Or.inr ⟨⟨Role.model, errorMessage⟩, ?_⟩
      rw [hs]
      exact hcatch
    · refine Or.inr ⟨⟨Role.model, errorMessage⟩, ?_⟩
      rw [hs]
      exact hcatch

theorem noPending_pendingOk {l : List Message} (h : noPending l = true) :
    pendingOk l = true := by
  simp only [noPending, List.all_eq_true] at h
  simp only [pendingOk, List.all_eq_true]
  intro m hm
  exact h m (List.dropLast_subset l hm)

theorem pendingOk_shape (L : List Message) (p : String) (m : Message)
    (h : noPending L = true) :
    pendingOk (L ++ [⟨Role.user, p⟩, m]) = true := by
  simp only [pendingOk, dropLast_two, List.all_append, Bool.and_eq_true]
  exact ⟨h, by simp [isLoadingMsg]⟩

theorem noPending_shape (L : List Message) (p t : String)
    (h : noPending L = true) :
    noPending (L ++ [⟨Role.user, p⟩, ⟨Role.model, t⟩]) = true := by
  simp only [noPending, List.all_append, Bool.and_eq_true] at *
  exact ⟨h, by simp [isLoadingMsg]⟩

/-! ### Claims -/

/-- C1 (counterexample): the claim says that a stream error arriving after at
least one chunk leaves the partial model text unchanged.  The `catch` block
of `handleSendMessage` replaces the last message unconditionally: after
submitting "abc" and receiving the single chunk "partial", a stream error
overwrites the partial text with the localized error string. -/
theorem C1_counterexample :
    (handleSendMessage ⟨initialMessages, false⟩ "abc" ["partial"] true).state.messages.getLast?
        = some ⟨Role.model, errorMessage⟩
    ∧ (handleSendMessage ⟨initialMessages, false⟩ "abc" ["partial"] true).state.messages.getLast?
        ≠ some ⟨Role.model, "partial"⟩ := by
  decide

/-- C1 (amended): if the stream raises an error after at least one chunk has
been received, the last message — the partial `model` message — is replaced
by the fixed localized error string, and `busy` is false when
`handleSendMessage` completes. -/
theorem C1_lateFailureReplacesPartial (st : ChatState) (raw : String) (c : String)
    (cs : List String) (hp : jsTrim raw ≠ "") (hb : st.isLoading = false) :
    (handleSendMessage st raw (c :: cs) true).state.messages.getLast?
        = some ⟨Role.model, errorMessage⟩
    ∧ (handleSendMessage st raw (c :: cs) true).state.isLoading = false := by
  rw [handleSendMessage_run st raw (c :: cs) true hp hb]
  constructor
  · show (applyCatch
        (streamLoop (c :: cs) (appendUserAndPending st.messages (jsTrim raw)) "" true).1).getLast?
        = some ⟨Role.model, errorMessage⟩
    rw [appendUserAndPending_eq, streamLoop_cons]
    show (applyCatch (st.messages ++ [⟨Role.user, jsTrim raw⟩, _])).getLast? = _
    rw [applyCatch_two, getLast?_two]
  · rfl

theorem C1_lateFailureReplacesPartial_witness :
    jsTrim "abc" ≠ ""
    ∧ ((handleSendMessage ⟨initialMessages, false⟩ "abc" ["p"] true).state.messages.getLast?
          = some ⟨Role.model, errorMessage⟩
      ∧ (handleSendMessage ⟨initialMessages, false⟩ "abc" ["p"] true).state.isLoading = false) :=
  ⟨by decide, C1_lateFailureReplacesPartial ⟨initialMessages, false⟩ "abc" "p" [] (by decide) rfl⟩

/-- C2 (counterexample): the claimed invariant — at most one pending message,
always last — can be broken at an observable point.  A stream that ends
normally with zero chunks leaves the loading placeholder behind with
`isLoading = false` (state `cexMidState`); submitting again then appends a
second placeholder, so right after the append the earlier placeholder is a
non-final loading message. -/
theorem C2_counterexample :
    pendingOk cexMidState.messages = true
    ∧ cexMidState.isLoading = false
    ∧ (sendTrace cexMidState "b" ["x"] false)[1]?
        = some ⟨cexMidState.messages ++ [⟨Role.user, "b"⟩, ⟨Role.loading, ""⟩], true⟩
    ∧ pendingOk (cexMidState.messages ++ [⟨Role.user, "b"⟩, ⟨Role.loading, ""⟩]) = false := by
  decide

/-- C2 (amended): provided the state at the start of the call contains no
pending message (true of the initial state, and preserved by every request
whose stream delivers at least one chunk or raises), every observable state
of `handleSendMessage` has at most one pending message and it is the last
element; moreover the final state again contains no pending message unless
the stream ended normally with zero chunks. -/
theorem C2_pendingInvariant (st : ChatState) (raw : String) (chunks : List String)
    (fails : Bool) (h : noPending st.messages = true) :
    ((sendTrace st raw chunks fails).all (fun s => pendingOk s.messages)) = true
    ∧ (noPending (handleSendMessage st raw chunks fails).state.messages = true
        ∨ (chunks = [] ∧ fails = false)) := by
  by_cases hc : (jsTrim raw = "" ∨ st.isLoading = true)
  · constructor
    · unfold sendTrace
      rw [if_pos hc]
      simp only [List.all_cons, List.all_nil, Bool.and_true]
      exact noPending_pendingOk h
    · left
      unfold handleSendMessage
      rw [if_pos hc]
      exact h
  · push_neg at hc
    obtain ⟨hp, hb'⟩ := hc
    have hb : st.isLoading = false := Bool.eq_false_iff.mpr hb'
    constructor
    · rw [List.all_eq_true]
      intro s hs
      rcases sendTrace_shape st raw chunks fails hp hb s hs with h1 | ⟨m, hm⟩
      · rw [h1]; exact noPending_pendingOk h
      · rw [hm]; exact pendingOk_shape st.messages (jsTrim raw) m h
    · cases fails with
      | false =>
        cases chunks with
        | nil => exact Or.inr ⟨rfl, rfl⟩
        | cons c cs =>
          left
          rw [handleSendMessage_run st raw (c :: cs) false hp hb]
          show noPending
              ((streamLoop (c :: cs) (appendUserAndPending st.messages (jsTrim raw)) "" true).1)
              = true
          rw [appendUserAndPending_eq, streamLoop_cons]
          exact noPending_shape st.messages (jsTrim raw) _ h
      | true =>
        left
        obtain ⟨m2, hm2⟩ : ∃ m,
            (streamLoop chunks (appendUserAndPending st.messages (jsTrim raw)) "" true).1
              = st.messages ++ [⟨Role.user, jsTrim raw⟩, m] := by
          rw [appendUserAndPending_eq]
          exact streamLoop_shape chunks st.messages _ _ "" true
        rw [handleSendMessage_run st raw chunks true hp hb]
        show noPending
            (applyCatch (streamLoop chunks (appendUserAndPending st.messages (jsTrim raw)) "" true).1)
            = true
        rw [hm2, applyCatch_two]
        exact noPending_shape st.messages (jsTrim raw) errorMessage h

theorem C2_pendingInvariant_witness :
    noPending initialMessages = true
    ∧ (((sendTrace ⟨initialMessages, false⟩ "hello" ["x"] false).all
          (fun s => pendingOk s.messages)) = true
      ∧ (noPending (handleSendMessage ⟨initialMessages, false⟩ "hello" ["x"] false).state.messages
            = true
        ∨ (["x"] = ([] : List String) ∧ false = false))) :=
  ⟨by decide, C2_pendingInvariant ⟨initialMessages, false⟩ "hello" ["x"] false (by decide)⟩

/-- C3: when the stream delivers chunks `c :: cs` in order and ends without
failure, the last message of the final sequence is a `model` message whose
text is the in-order concatenation of all the chunks (no reordering, loss,
or duplication). -/
theorem C3_concatenation (st : ChatState) (raw : String) (c : String) (cs : List String)
    (hp : jsTrim raw ≠ "") (hb : st.isLoading = false) :
    (handleSendMessage st raw (c :: cs) false).state.messages.getLast?
        = some ⟨Role.model, concatChunks (c :: cs)⟩ := by
  rw [handleSendMessage_run st raw (c :: cs) false hp hb]
  show ((streamLoop (c :: cs) (appendUserAndPending st.messages (jsTrim raw)) "" true).1).getLast?
      = some ⟨Role.model, concatChunks (c :: cs)⟩
  rw [appendUserAndPending_eq, streamLoop_cons]
  show (st.messages ++ [(⟨Role.user, jsTrim raw⟩ : Message),
      (⟨Role.model, concatChunks (c :: cs)⟩ : Message)]).getLast?
      = some ⟨Role.model, concatChunks (c :: cs)⟩
  rw [getLast?_two]

theorem C3_concatenation_witness :
    jsTrim "hi" ≠ ""
    ∧ (handleSendMessage ⟨initialMessages, false⟩ "hi" ["Chào bạn", "!"] false).state.messages.getLast?
        = some ⟨Role.model, concatChunks ["Chào bạn", "!"]⟩ :=
  ⟨by decide, C3_concatenation ⟨initialMessages, false⟩ "hi" "Chào bạn" ["!"] (by decide) rfl⟩

/-- C4: a prompt with non-empty trimmed text submitted while not busy makes
the observable state right after the synchronous part of `handleSendMessage`
(before any chunk arrives) equal to the old sequence plus exactly a `user`
message carrying the trimmed prompt and then the loading placeholder, with
`isLoading` set to true. -/
theorem C4_appendTwo (st : ChatState) (raw : String) (chunks : List String) (fails : Bool)
    (hp : jsTrim raw ≠ "") (hb : st.isLoading = false) :
    (sendTrace st raw chunks fails)[1]?
        = some ⟨st.messages ++ [⟨Role.user, jsTrim raw⟩, ⟨Role.loading, ""⟩], true⟩ := by
  rw [sendTrace_run st raw chunks fails hp hb]
  simp [appendUserAndPending]

theorem C4_appendTwo_witness :
    jsTrim " hi " ≠ ""
    ∧ (sendTrace ⟨initialMessages, false⟩ " hi " ["x"] false)[1]?
        = some ⟨initialMessages ++ [⟨Role.user, jsTrim " hi "⟩, ⟨Role.loading, ""⟩], true⟩ :=
  ⟨by decide, C4_appendTwo ⟨initialMessages, false⟩ " hi " ["x"] false (by decide) rfl⟩

/-- C5: a prompt that trims to empty, or any prompt submitted while busy,
makes `handleSendMessage` a no-op: the state (messages and `isLoading`) is
returned unchanged, no request is issued, and the only observable state is
the unchanged one. -/
theorem C5_rejectedNoop (st : ChatState) (raw : String) (chunks : List String) (fails : Bool)
    (h : jsTrim raw = "" ∨ st.isLoading = true) :
    handleSendMessage st raw chunks fails = ⟨st, false⟩
    ∧ sendTrace st raw chunks fails = [st] := by
  constructor
  · unfold handleSendMessage
    rw [if_pos h]
  · unfold sendTrace
    rw [if_pos h]

theorem C5_rejectedNoop_witness :
    (jsTrim "   " = "" ∨ (⟨initialMessages, false⟩ : ChatState).isLoading = true)
    ∧ (handleSendMessage ⟨initialMessages, false⟩ "   " ["x"] false
          = ⟨⟨initialMessages, false⟩, false⟩
      ∧ sendTrace ⟨initialMessages, false⟩ "   " ["x"] false = [⟨initialMessages, false⟩]) :=
  ⟨Or.inl (by decide),
    C5_rejectedNoop ⟨initialMessages, false⟩ "   " ["x"] false (Or.inl (by decide))⟩

/-- C6: whenever a request was actually issued, `isLoading` is false when
`handleSendMessage` completes, on every exit path (normal exhaustion, failure
before any chunk, failure after partial content). -/
theorem C6_busyClearedOnExit (st : ChatState) (raw : String) (chunks : List String)
    (fails : Bool) (h : (handleSendMessage st raw chunks fails).requestIssued = true) :
    (handleSendMessage st raw chunks fails).state.isLoading = false := by
  by_cases hc : (jsTrim raw = "" ∨ st.isLoading = true)
  · exfalso
    unfold handleSendMessage at h
    rw [if_pos hc] at h
    exact Bool.false_ne_true h
  · unfold handleSendMessage
    rw [if_neg hc]

theorem C6_busyClearedOnExit_witness :
    (handleSendMessage ⟨initialMessages, false⟩ "abc" ["x"] true).requestIssued = true
    ∧ (handleSendMessage ⟨initialMessages, false⟩ "abc" ["x"] true).state.isLoading = false :=
  ⟨by decide, C6_busyClearedOnExit ⟨initialMessages, false⟩ "abc" ["x"] true (by decide)⟩

/-- C7: if the stream raises before any chunk is received, the loading
placeholder (the last message) is replaced by a `model` message carrying the
localized error string, the sequence length is unchanged by the replacement
(still the old length plus the two appended messages), and `isLoading` is
false afterwards. -/
theorem C7_earlyFailure (st : ChatState) (raw : String)
    (hp : jsTrim raw ≠ "") (hb : st.isLoading = false) :
    (handleSendMessage st raw [] true).state.messages
        = st.messages ++ [⟨Role.user, jsTrim raw⟩, ⟨Role.model, errorMessage⟩]
    ∧ (handleSendMessage st raw [] true).state.messages.length
        = st.messages.length + 2
    ∧ (handleSendMessage st raw [] true).state.isLoading = false := by
  have hmsg : (handleSendMessage st raw [] true).state.messages
      = st.messages ++ [⟨Role.user, jsTrim raw⟩, ⟨Role.model, errorMessage⟩] := by
    rw [handleSendMessage_run st raw [] true hp hb]
    show applyCatch (streamLoop [] (appendUserAndPending st.messages (jsTrim raw)) "" true).1
        = st.messages ++ [⟨Role.user, jsTrim raw⟩, ⟨Role.model, errorMessage⟩]
    show applyCatch (st.messages ++ [⟨Role.user, jsTrim raw⟩, ⟨Role.loading, ""⟩]) = _
    rw [applyCatch_two]
  refine ⟨hmsg, ?_, ?_⟩
  · rw [hmsg]
    simp
  · rw [handleSendMessage_run st raw [] true hp hb]

theorem C7_earlyFailure_witness :
    jsTrim "abc" ≠ ""
    ∧ ((handleSendMessage ⟨initialMessages, false⟩ "abc" [] true).state.messages
          = initialMessages ++ [⟨Role.user, jsTrim "abc"⟩, ⟨Role.model, errorMessage⟩]
      ∧ (handleSendMessage ⟨initialMessages, false⟩ "abc" [] true).state.messages.length
          = initialMessages.length + 2
      ∧ (handleSendMessage ⟨initialMessages, false⟩ "abc" [] true).state.isLoading = false) :=
  ⟨by decide, C7_earlyFailure ⟨initialMessages, false⟩ "abc" (by decide) rfl⟩

/-- C8 (counterexample): the claim says Enter with any simultaneous modifier
does not submit.  The handler only checks `!e.shiftKey`: an Enter keydown
with the Ctrl modifier held (and Shift not held) still submits the form. -/
theorem C8_counterexample :
    (⟨"Enter", false, true, false, false⟩ : KeyEvent).ctrlKey = true
    ∧ keydownSubmits ⟨"Enter", false, true, false, false⟩ = true := by
  decide

/-- C8 (amended): a keydown submits the form exactly when the key is Enter
and Shift is not held; the Ctrl, Alt and Meta modifiers are ignored, and
Enter-with-Shift falls through to the default handling (inserting a
newline). -/
theorem C8_submitCondition (e : KeyEvent) :
    keydownSubmits e = true ↔ (e.key = "Enter" ∧ e.shiftKey = false) := by
  simp [keydownSubmits]

theorem C8_submitCondition_witness :
    keydownSubmits ⟨"Enter", false, false, false, false⟩ = true
      ↔ ("Enter" = "Enter" ∧ false = false) :=
  C8_submitCondition ⟨"Enter", false, false, false, false⟩

/-- C9: if the stream ends normally having delivered zero chunks, the loading
placeholder is never converted to a `model` message — it remains the last
element of the sequence — while `isLoading` is false afterwards. -/
theorem C9_emptyStreamKeepsPending (st : ChatState) (raw : String)
    (hp : jsTrim raw ≠ "") (hb : st.isLoading = false) :
    (handleSendMessage st raw [] false).state.messages.getLast?
        = some ⟨Role.loading, ""⟩
    ∧ (handleSendMessage st raw [] false).state.isLoading = false := by
  rw [handleSendMessage_run st raw [] false hp hb]
  constructor
  · show ((streamLoop [] (appendUserAndPending st.messages (jsTrim raw)) "" true).1).getLast?
        = some ⟨Role.loading, ""⟩
    show (st.messages ++ [(⟨Role.user, jsTrim raw⟩ : Message),
        (⟨Role.loading, ""⟩ : Message)]).getLast? = some ⟨Role.loading, ""⟩
    rw [getLast?_two]
  · rfl

theorem C9_emptyStreamKeepsPending_witness :
    jsTrim "abc" ≠ ""
    ∧ ((handleSendMessage ⟨initialMessages, false⟩ "abc" [] false).state.messages.getLast?
          = some ⟨Role.loading, ""⟩
      ∧ (handleSendMessage ⟨initialMessages, false⟩ "abc" [] false).state.isLoading = false) :=
  ⟨by decide, C9_emptyStreamKeepsPending ⟨initialMessages, false⟩ "abc" (by decide) rfl⟩

/-- C10: on valid input every observable state of the request extends the old
sequence — the old messages are preserved unchanged at their original
indices — and the final sequence length is the initial length plus exactly
two, on both the success and the failure paths. -/
theorem C10_frame (st : ChatState) (raw : String) (chunks : List String) (fails : Bool)
    (hp : jsTrim raw ≠ "") (hb : st.isLoading = false) :
    ((sendTrace st raw chunks fails).all
        (fun s => s.messages.take st.messages.length == st.messages)) = true
    ∧ (handleSendMessage st raw chunks fails).state.messages.length
        = st.messages.length + 2 := by
  constructor
  · rw [List.all_eq_true]
    intro s hs
    rw [beq_iff_eq]
    rcases sendTrace_shape st raw chunks fails hp hb s hs with h | ⟨m, hm⟩
    · rw [h]
      exact List.take_length st.messages
    · rw [hm]
      exact List.take_left st.messages _
  · obtain ⟨m2, hm2⟩ : ∃ m,
        (streamLoop chunks (appendUserAndPending st.messages (jsTrim raw)) "" true).1
          = st.messages ++ [⟨Role.user, jsTrim raw⟩, m] := by
      rw [appendUserAndPending_eq]
      exact streamLoop_shape chunks st.messages _ _ "" true
    rw [handleSendMessage_run st raw chunks fails hp hb]
    cases fails with
    | false =>
      show ((streamLoop chunks (appendUserAndPending st.messages (jsTrim raw)) "" true).1).length
          = st.messages.length + 2
      rw [hm2]
      simp
    | true =>
      show (applyCatch
          (streamLoop chunks (appendUserAndPending st.messages (jsTrim raw)) "" true).1).length
          = st.messages.length + 2
      rw [hm2, applyCatch_two]
      simp

theorem C10_frame_witness :
    jsTrim "hi" ≠ ""
    ∧ (((sendTrace ⟨initialMessages, false⟩ "hi" ["a"] false).all
          (fun s => s.messages.take initialMessages.length == initialMessages)) = true
      ∧ (handleSendMessage ⟨initialMessages, false⟩ "hi" ["a"] false).state.messages.length
          = initialMessages.length + 2) :=
  ⟨by decide, C10_frame ⟨initialMessages, false⟩ "hi" ["a"] false (by decide) rfl⟩
